import Mathlib

/-!
Verification of the AnalyticCore server core: Credential Vault, Token Broker,
Paginated Fetcher, Table Normalizer and the SQL-dump extractor.

Each definition is a shallow embedding of the corresponding JavaScript
function.  Strings of bytes are modelled as `List Nat` (each entry < 256),
JavaScript strings as Lean `String` or `List Char`, absolute times as `Int`
milliseconds, and external collaborators (the AES block transform of the
Node `crypto` library, the remote OAuth endpoints, the Graph API, the
locale date formatter) as explicit parameters.
-/

namespace AnalyticCore

/-! ### Hex encoding, as performed by Node `Buffer`/`cipher` hex conversion -/

/-- Lower-case hex digit for a nibble, as Node's hex encoding produces. -/
def hexDigitChar (n : Nat) : Char :=
  if n < 10 then Char.ofNat (48 + n) else Char.ofNat (87 + n)

/-- Hex encoding of one byte: high nibble then low nibble. -/
def byteToHex (b : Nat) : List Char :=
  [hexDigitChar (b / 16), hexDigitChar (b % 16)]

/-- Hex encoding of a byte string (`buf.toString('hex')`). -/
def bytesToHex : List Nat → List Char
  | [] => []
  | b :: rest => byteToHex b ++ bytesToHex rest

/-- Value of one hex digit character; `none` for a non-hex character. -/
def hexVal (c : Char) : Option Nat :=
  if '0' ≤ c ∧ c ≤ '9' then some (c.toNat - 48)
  else if 'a' ≤ c ∧ c ≤ 'f' then some (c.toNat - 87)
  else if 'A' ≤ c ∧ c ≤ 'F' then some (c.toNat - 55)
  else none

/-- Hex decoding (`Buffer.from(s, 'hex')`); `none` models a malformed hex
string, on which the Node pipeline fails. -/
def hexToBytes : List Char → Option (List Nat)
  | [] => some []
  | [_] => none
  | c1 :: c2 :: rest =>
    match hexVal c1, hexVal c2, hexToBytes rest with
    | some h, some l, some bs => some ((h * 16 + l) :: bs)
    | _, _, _ => none

theorem hexVal_hexDigitChar {n : Nat} (h : n < 16) :
    hexVal (hexDigitChar n) = some n := by
  interval_cases n <;> decide

theorem hexDigitChar_ne_colon {n : Nat} (h : n < 16) :
    hexDigitChar n ≠ ':' := by
  interval_cases n <;> decide

theorem colon_not_mem_bytesToHex {bs : List Nat} (h : ∀ b ∈ bs, b < 256) :
    ':' ∉ bytesToHex bs := by
  induction bs with
  | nil => simp [bytesToHex]
  | cons b rest ih =>
    have hb : b < 256 := h b (List.mem_cons_self b rest)
    have hhi : b / 16 < 16 := Nat.div_lt_of_lt_mul (by omega)
    have hlo : b % 16 < 16 := Nat.mod_lt _ (by omega)
    have ihrest := ih (fun x hx => h x (List.mem_cons_of_mem _ hx))
    simp only [bytesToHex, byteToHex, List.cons_append, List.nil_append,
      List.mem_cons]
    push_neg
    exact ⟨(hexDigitChar_ne_colon hhi).symm, (hexDigitChar_ne_colon hlo).symm,
      ihrest⟩

theorem hexToBytes_bytesToHex {bs : List Nat} (h : ∀ b ∈ bs, b < 256) :
    hexToBytes (bytesToHex bs) = some bs := by
  induction bs with
  | nil => rfl
  | cons b rest ih =>
    have hb : b < 256 := h b (List.mem_cons_self b rest)
    have hhi : b / 16 < 16 := Nat.div_lt_of_lt_mul (by omega)
    have hlo : b % 16 < 16 := Nat.mod_lt _ (by omega)
    have ihrest := ih (fun x hx => h x (List.mem_cons_of_mem _ hx))
    simp only [bytesToHex, byteToHex, List.cons_append, List.nil_append]
    simp only [hexToBytes, hexVal_hexDigitChar hhi, hexVal_hexDigitChar hlo,
      ihrest]
    congr 1
    congr 1
    omega

/-! ### `String.prototype.split(':')`, modelled on character lists -/

/-- JavaScript `split` on a single character. -/
def splitOnChar (c : Char) : List Char → List (List Char)
  | [] => [[]]
  | x :: rest =>
    if x = c then [] :: splitOnChar c rest
    else
      match splitOnChar c rest with
      | [] => [[x]]
      | l :: ls => (x :: l) :: ls

theorem splitOnChar_ne_nil (c : Char) (l : List Char) :
    splitOnChar c l ≠ [] := by
  induction l with
  | nil => simp [splitOnChar]
  | cons x rest ih =>
    simp only [splitOnChar]
    split
    · simp
    · split
      · simp
      · simp

theorem splitOnChar_of_not_mem {c : Char} {l : List Char} (h : c ∉ l) :
    splitOnChar c l = [l] := by
  induction l with
  | nil => rfl
  | cons x rest ih =>
    have hx : x ≠ c := fun hxc => h (hxc ▸ List.mem_cons_self x rest)
    have hrest : c ∉ rest := fun hr => h (List.mem_cons_of_mem _ hr)
    simp only [splitOnChar, if_neg hx, ih hrest]

theorem splitOnChar_append {c : Char} {a b : List Char} (h : c ∉ a) :
    splitOnChar c (a ++ c :: b) = a :: splitOnChar c b := by
  induction a with
  | nil => simp [splitOnChar]
  | cons x rest ih =>
    have hx : x ≠ c := fun hxc => h (hxc ▸ List.mem_cons_self x rest)
    have hrest : c ∉ rest := fun hr => h (List.mem_cons_of_mem _ hr)
    simp only [List.cons_append, splitOnChar, if_neg hx, List.append_eq,
      ih hrest]

/-! ### Credential Vault (`SharePointService.encrypt` / `decrypt`,
`src/unnamed/part_000` lines 42-70, and the identical
`SharePointOAuthService.encrypt` / `decrypt`, `src/index.js` lines 1293-1322)

The AES-256-CBC transform provided by Node's `crypto` module is an external
collaborator; it is modelled as an explicit `BlockCipher` parameter.  Its
key-length validation (`createCipheriv` / `createDecipheriv` reject any
AES-256 key that is not exactly 32 bytes, and any IV that is not 16 bytes)
is part of the library's observable behaviour the source relies on, and is
embedded as the corresponding checks below. -/

/-- Errors observable from the vault functions.  `configurationError` is the
source's own `throw new Error('Encryption key not configured')`;
`invalidKeyLength` is the Node crypto library's `ERR_CRYPTO_INVALID_KEYLEN`;
`decryptionError` stands for the library failures on malformed
ciphertext input (bad hex, missing `:` part, wrong IV size, bad padding). -/
inductive VaultError where
  | configurationError : VaultError
  | invalidKeyLength : VaultError
  | decryptionError : VaultError
deriving DecidableEq, Repr

/-- The external AES-256-CBC transform: `enc key iv plaintext` and
`dec key iv ciphertext`, all byte strings. -/
structure BlockCipher where
  enc : List Nat → List Nat → List Nat → List Nat
  dec : List Nat → List Nat → List Nat → List Nat

/-- `encrypt(text)`.  The fresh `crypto.randomBytes(16)` IV is passed in as
the parameter `iv` (the randomness source made explicit).  Output is the
`iv_hex:ciphertext_hex` character string. -/
def encrypt (C : BlockCipher) (encryptionKey : Option (List Nat))
    (iv : List Nat) (text : List Nat) : Except VaultError (List Char) :=
  match encryptionKey with
  | none => .error .configurationError
  | some key =>
    if key.length ≠ 32 then .error .invalidKeyLength
    else .ok (bytesToHex iv ++ ':' :: bytesToHex (C.enc key iv text))

/-- `decrypt(encryptedText)`: split on `:`, hex-decode both parts, run the
block transform. -/
def decrypt (C : BlockCipher) (encryptionKey : Option (List Nat))
    (encryptedText : List Char) : Except VaultError (List Nat) :=
  match encryptionKey with
  | none => .error .configurationError
  | some key =>
    if key.length ≠ 32 then .error .invalidKeyLength
    else
      let parts := splitOnChar ':' encryptedText
      match parts.get? 0, parts.get? 1 with
      | some ivHex, some ctHex =>
        match hexToBytes ivHex, hexToBytes ctHex with
        | some iv, some ct =>
          if iv.length ≠ 16 then .error .decryptionError
          else .ok (C.dec key iv ct)
        | _, _ => .error .decryptionError
      | _, _ => .error .decryptionError

/-- Vault construction (`SharePointService` constructor, lines 27-29 of
`src/unnamed/part_000`): stores the key unchanged; a missing or
non-32-byte key only triggers a `console.warn`, recorded here as the
returned `Bool`. -/
def mkVault (encryptionKey : Option (List Nat)) :
    Option (List Nat) × Bool :=
  (encryptionKey,
   match encryptionKey with
   | none => true
   | some k => decide (k.length ≠ 32))

/-! ### Concrete instances used by witnesses -/

/-- A concrete (trivially invertible) block transform used to instantiate the
external-cipher parameter in witnesses. -/
def cipher0 : BlockCipher :=
  { enc := fun _ _ m => m, dec := fun _ _ m => m }

/-- A concrete 32-byte key. -/
def key0 : List Nat := List.replicate 32 97

/-- A concrete 31-byte key. -/
def key31 : List Nat := List.replicate 31 97

/-- A concrete 16-byte IV. -/
def iv0 : List Nat := List.replicate 16 1

/-- A second, distinct concrete 16-byte IV. -/
def iv1 : List Nat := List.replicate 16 2

/-- A concrete plaintext byte string. -/
def text0 : List Nat := [104, 105]

/-- C1: with a 32-byte key, `decrypt(encrypt(P)) = P`: `encrypt` produces the
`iv_hex:ciphertext_hex` string and `decrypt` parses that same format back
under the same key.  The hypotheses record that the external AES transform
inverts itself on this key/IV and produces bytes, and that the IV is the
16-byte output of `randomBytes(16)`. -/
theorem vault_encrypt_decrypt_roundtrip
    (C : BlockCipher) (key iv text : List Nat)
    (hdec : C.dec key iv (C.enc key iv text) = text)
    (hkey : key.length = 32) (hiv : iv.length = 16)
    (hivb : ∀ b ∈ iv, b < 256)
    (hctb : ∀ b ∈ C.enc key iv text, b < 256) :
    ∃ out, encrypt C (some key) iv text = .ok out ∧
      decrypt C (some key) out = .ok text := by
  refine ⟨bytesToHex iv ++ ':' :: bytesToHex (C.enc key iv text), ?_, ?_⟩
  · simp [encrypt, hkey]
  · have hsplit : splitOnChar ':'
        (bytesToHex iv ++ ':' :: bytesToHex (C.enc key iv text))
        = [bytesToHex iv, bytesToHex (C.enc key iv text)] := by
      rw [splitOnChar_append (colon_not_mem_bytesToHex hivb),
          splitOnChar_of_not_mem (colon_not_mem_bytesToHex hctb)]
    simp [decrypt, hkey, hsplit, hexToBytes_bytesToHex hivb,
          hexToBytes_bytesToHex hctb, hiv, hdec]

theorem vault_encrypt_decrypt_roundtrip_witness :
    ∃ out, encrypt cipher0 (some key0) iv0 text0 = .ok out ∧
      decrypt cipher0 (some key0) out = .ok text0 :=
  vault_encrypt_decrypt_roundtrip cipher0 key0 iv0 text0 rfl (by decide)
    (by decide) (by decide) (by decide)

/-- C9: probabilistic encryption, in the claim's deterministic equivalent
form: with a 32-byte key, two distinct 16-byte IVs produce distinct
`iv_hex:ciphertext_hex` outputs, whatever the plaintext. -/
theorem encrypt_distinct_iv_distinct_output
    (C : BlockCipher) (key ivA ivB P : List Nat)
    (hkey : key.length = 32)
    (hbA : ∀ b ∈ ivA, b < 256) (hbB : ∀ b ∈ ivB, b < 256)
    (hne : ivA ≠ ivB) :
    encrypt C (some key) ivA P ≠ encrypt C (some key) ivB P := by
  intro heq
  simp only [encrypt, hkey, ne_eq, not_true_eq_false, if_false,
    reduceCtorEq, Except.ok.injEq] at heq
  have h1 := splitOnChar_append (c := ':')
    (b := bytesToHex (C.enc key ivA P)) (colon_not_mem_bytesToHex hbA)
  have h2 := splitOnChar_append (c := ':')
    (b := bytesToHex (C.enc key ivB P)) (colon_not_mem_bytesToHex hbB)
  rw [heq, h2] at h1
  injection h1 with hh _
  have hidA := hexToBytes_bytesToHex hbA
  rw [← hh, hexToBytes_bytesToHex hbB] at hidA
  exact hne (Option.some.inj hidA.symm)

theorem encrypt_distinct_iv_distinct_output_witness :
    encrypt cipher0 (some key0) iv0 text0 ≠
      encrypt cipher0 (some key0) iv1 text0 :=
  encrypt_distinct_iv_distinct_output cipher0 key0 iv0 iv1 text0
    (by decide) (by decide) (by decide) (by decide)

/-- C6 counterexample: with a 31-byte key, construction does NOT fail fast —
`mkVault` returns the vault with the key stored unchanged and only a warning
flag set — and `encrypt` fails with the crypto library's invalid-key-length
error, which is not the `ConfigurationError` raised by the source's own
missing-key check. -/
theorem vault_key31_counterexample :
    (mkVault (some key31)).1 = some key31 ∧
    (mkVault (some key31)).2 = true ∧
    encrypt cipher0 (some key31) iv0 text0 = .error .invalidKeyLength ∧
    (Except.error VaultError.invalidKeyLength :
      Except VaultError (List Char)) ≠ .error .configurationError := by
  refine ⟨rfl, by decide, rfl, by simp⟩

/-- C6 amended: constructing the vault with a 31-byte key only logs a warning
and stores the key unchanged (never truncated or padded); every subsequent
`encrypt` or `decrypt` call fails, but with the crypto library's
invalid-key-length error rather than the source's `ConfigurationError`
(which is raised only when the key is absent entirely). -/
theorem vault_key31_behavior (key : List Nat) (h : key.length = 31) :
    (mkVault (some key)).1 = some key ∧
    (mkVault (some key)).2 = true ∧
    (∀ (C : BlockCipher) (iv text : List Nat),
      encrypt C (some key) iv text = .error .invalidKeyLength) ∧
    (∀ (C : BlockCipher) (ct : List Char),
      decrypt C (some key) ct = .error .invalidKeyLength) := by
  refine ⟨rfl, ?_, ?_, ?_⟩
  · simp [mkVault, h]
  · intro C iv text
    simp [encrypt, h]
  · intro C ct
    simp [decrypt, h]

theorem vault_key31_behavior_witness :
    (mkVault (some key31)).1 = some key31 ∧
    (mkVault (some key31)).2 = true ∧
    (∀ (C : BlockCipher) (iv text : List Nat),
      encrypt C (some key31) iv text = .error .invalidKeyLength) ∧
    (∀ (C : BlockCipher) (ct : List Char),
      decrypt C (some key31) ct = .error .invalidKeyLength) :=
  vault_key31_behavior key31 (by decide)

/-! ### Table Normalizer (`SharePointService.normalizeListData`,
`src/unnamed/part_000` lines 280-326)

SharePoint field values arriving from the Graph API JSON are modelled by
`JsValue`; `vNull` stands for JSON `null` (and, wrapped in `Option.none`,
for an absent property, i.e. JavaScript `undefined`). -/

inductive JsValue where
  | vNull : JsValue
  | vStr : String → JsValue
  | vNum : Int → JsValue
  | vBool : Bool → JsValue
  | vArr : List JsValue → JsValue
  | vObj : List (String × JsValue) → JsValue

mutual

/-- JavaScript `String(value)` on the values the normalizer can see. -/
def jsToString : JsValue → String
  | .vNull => "null"
  | .vStr s => s
  | .vNum n => toString n
  | .vBool b => if b then "true" else "false"
  | .vArr xs => joinWith "," xs
  | .vObj _ => "[object Object]"

/-- JavaScript `Array.prototype.join(sep)`: elements stringified with
`String(..)` except `null`/`undefined`, which become the empty string. -/
def joinWith (sep : String) : List JsValue → String
  | [] => ""
  | [.vNull] => ""
  | [v] => jsToString v
  | .vNull :: rest => "" ++ sep ++ joinWith sep rest
  | v :: rest => jsToString v ++ sep ++ joinWith sep rest

end

/-- JavaScript property access `v[k]` (`undefined`, i.e. `none`, when absent
or when `v` is not an object). -/
def getProp : JsValue → String → Option JsValue
  | .vObj props, k => props.lookup k
  | _, _ => none

/-- JavaScript truthiness of a value. -/
def truthy : JsValue → Bool
  | .vNull => false
  | .vStr s => s ≠ ""
  | .vNum n => n ≠ 0
  | .vBool b => b
  | .vArr _ => true
  | .vObj _ => true

/-- `typeof v === 'object'` for a non-null value (arrays included). -/
def isObjType : JsValue → Bool
  | .vObj _ => true
  | .vArr _ => true
  | _ => false

/-- `typeof value === 'object' && value[k]` — the truthy-property test the
source uses for `LookupValue` and `Email`. -/
def truthyProp (v : JsValue) (k : String) : Bool :=
  isObjType v &&
    match getProp v k with
    | some x => truthy x
    | none => false

/-- The `value.match(/^\d{4}-\d{2}-\d{2}T/)` test. -/
def isoDateChars : List Char → Bool
  | y1 :: y2 :: y3 :: y4 :: '-' :: m1 :: m2 :: '-' :: d1 :: d2 :: 'T' :: _ =>
    y1.isDigit && y2.isDigit && y3.isDigit && y4.isDigit &&
      m1.isDigit && m2.isDigit && d1.isDigit && d2.isDigit
  | _ => false

/-- Whether a string starts with the `YYYY-MM-DDT` pattern the source's
regex matches. -/
def isIsoDateString (s : String) : Bool :=
  isoDateChars s.data

/-- Field-value coercion, the body of the per-cell lambda in
`normalizeListData`.  `toLocale` models the external
`new Date(value).toLocaleString()` formatter. -/
def coerceFieldValue (toLocale : String → String) (value : Option JsValue) :
    JsValue :=
  match value with
  | none => .vStr ""
  | some v =>
    match v with
    | .vNull => .vStr ""
    | _ =>
      if truthyProp v "LookupValue" then (getProp v "LookupValue").getD .vNull
      else if truthyProp v "Email" then (getProp v "Email").getD .vNull
      else
        match v with
        | .vArr xs => .vStr (joinWith "; " xs)
        | .vStr s => if isIsoDateString s then .vStr (toLocale s) else .vStr s
        | w => .vStr (jsToString w)

/-- A SharePoint column descriptor as returned by `getListColumns`. -/
structure SPColumn where
  name : String
  displayName : Option String

/-- A SharePoint list item: its `fields` object (absent models a missing
`fields` property, which the source defaults to `{}`). -/
structure SPItem where
  fields : Option (List (String × JsValue))

/-- JavaScript `a || b` on a possibly-absent string (an empty string is
falsy and falls through to the default). -/
def jsOrString : Option String → String → String
  | some s, d => if s = "" then d else s
  | none, d => d

/-- `normalizeListData(items, columns)`: `[]` for an empty item list,
otherwise the header row (display name when truthy, else machine name)
followed by one row per item, each cell produced by `coerceFieldValue`. -/
def normalizeListData (toLocale : String → String) (items : List SPItem)
    (columns : List SPColumn) : List (List JsValue) :=
  match items with
  | [] => []
  | _ :: _ =>
    let columnNames := columns.map (·.name)
    let headers :=
      columns.map (fun c => JsValue.vStr (jsOrString c.displayName c.name))
    let rows := items.map (fun item =>
      let fields := item.fields.getD []
      columnNames.map (fun colName =>
        coerceFieldValue toLocale (fields.lookup colName)))
    headers :: rows

/-! ### Normalizer theorems -/

/-- A concrete column with a display name. -/
def colDisp : SPColumn := ⟨"A", some "D"⟩

/-- A concrete column without a display name. -/
def colBare : SPColumn := ⟨"A", none⟩

/-- A concrete item whose field `A` is a lookup object with an empty
`LookupValue`. -/
def lookupEmptyItem : SPItem :=
  ⟨some [("A", .vObj [("LookupValue", .vStr "")])]⟩

/-- A concrete item whose field `A` is the string `"x"`. -/
def strItem : SPItem := ⟨some [("A", .vStr "x")]⟩

/-- C4: every row of the normalizer's output — the header row and every
data row — has length exactly `columns.length`. -/
theorem normalizeListData_row_length
    (toLocale : String → String) (items : List SPItem)
    (columns : List SPColumn) (row : List JsValue)
    (hmem : row ∈ normalizeListData toLocale items columns) :
    row.length = columns.length := by
  match items with
  | [] => simp [normalizeListData] at hmem
  | it :: its =>
    simp only [normalizeListData, List.mem_cons, List.mem_map] at hmem
    rcases hmem with h | ⟨item, _, hrow⟩
    · subst h; simp
    · rw [← hrow]; simp

theorem normalizeListData_row_length_witness :
    ([JsValue.vStr "x"] : List JsValue).length =
      ([colDisp] : List SPColumn).length :=
  normalizeListData_row_length (fun s => s) [strItem] [colDisp]
    [JsValue.vStr "x"] (List.mem_cons_of_mem _ (List.mem_cons_self _ _))

/-- C8 counterexample: on the empty item list the normalizer returns `[]`,
which has no first element, so the output is not `[headerRow, ...dataRows]`
as the claim states for every input item list including the empty one. -/
theorem normalizeListData_empty_items_counterexample :
    normalizeListData (fun s => s) [] [colDisp] = [] ∧
    (normalizeListData (fun s => s) [] [colDisp]).head? = none :=
  ⟨rfl, rfl⟩

/-- C8 amended: for every NONEMPTY input item list the normalizer returns
`[headerRow, ...dataRows]` whose first element is the header row, each
header cell being the column's display name when present and non-empty,
else the machine name; for the empty item list it returns `[]` with no
header row. -/
theorem normalizeListData_header_row
    (toLocale : String → String) (items : List SPItem)
    (columns : List SPColumn) (h : items ≠ []) :
    (normalizeListData toLocale items columns).head? =
      some (columns.map fun c =>
        JsValue.vStr (jsOrString c.displayName c.name)) := by
  match items with
  | [] => exact absurd rfl h
  | _ :: _ => simp [normalizeListData]

theorem normalizeListData_header_row_witness :
    (normalizeListData (fun s => s) [strItem] [colDisp, colBare]).head? =
      some [JsValue.vStr "D", JsValue.vStr "A"] :=
  normalizeListData_header_row (fun s => s) [strItem] [colDisp, colBare]
    (by simp)

/-- C5 counterexample: an object carrying `LookupValue` whose value is the
empty string (falsy in JavaScript) is NOT mapped to its `LookupValue` as
the claim states: the truthiness test in the source skips the lookup rule
and the cell becomes the stringification `"[object Object]"` instead of
`""`. -/
theorem coerceFieldValue_lookup_counterexample :
    normalizeListData (fun s => s) [lookupEmptyItem] [colBare]
      = [[JsValue.vStr "A"], [JsValue.vStr "[object Object]"]] ∧
    ("[object Object]" : String) ≠ "" :=
  ⟨rfl, by decide⟩

/-- C5 amended: the coercion precedence as actually implemented — null or
absent gives `""`; an object whose `LookupValue` is present AND truthy
gives that `LookupValue`; otherwise an object whose `Email` is present and
truthy gives that `Email`; an array joins its elements with `"; "`; a
string matching the `YYYY-MM-DDT` prefix (hours not required by the
source's regex) gives the locale date-time string; anything else gives its
stringification. -/
theorem coerceFieldValue_precedence (toLocale : String → String) :
    (coerceFieldValue toLocale none = .vStr "" ∧
     coerceFieldValue toLocale (some .vNull) = .vStr "") ∧
    (∀ (v x : JsValue), getProp v "LookupValue" = some x → truthy x = true →
      coerceFieldValue toLocale (some v) = x) ∧
    (∀ (v x : JsValue), truthyProp v "LookupValue" = false →
      getProp v "Email" = some x → truthy x = true →
      coerceFieldValue toLocale (some v) = x) ∧
    (∀ xs : List JsValue,
      coerceFieldValue toLocale (some (.vArr xs)) =
        .vStr (joinWith "; " xs)) ∧
    (∀ s : String, isIsoDateString s = true →
      coerceFieldValue toLocale (some (.vStr s)) = .vStr (toLocale s)) ∧
    (∀ s : String, isIsoDateString s = false →
      coerceFieldValue toLocale (some (.vStr s)) = .vStr s) ∧
    (∀ n : Int, coerceFieldValue toLocale (some (.vNum n)) =
      .vStr (toString n)) ∧
    (∀ b : Bool, coerceFieldValue toLocale (some (.vBool b)) =
      .vStr (if b then "true" else "false")) ∧
    (∀ props : List (String × JsValue),
      truthyProp (.vObj props) "LookupValue" = false →
      truthyProp (.vObj props) "Email" = false →
      coerceFieldValue toLocale (some (.vObj props)) =
        .vStr "[object Object]") := by
  refine ⟨⟨rfl, rfl⟩, ?_, ?_, ?_, ?_, ?_, ?_, ?_, ?_⟩
  · intro v x hg ht
    match v with
    | .vObj props =>
      have htp : truthyProp (JsValue.vObj props) "LookupValue" = true := by
        simp [truthyProp, isObjType, hg, ht]
      simp [coerceFieldValue, htp, hg]
    | .vNull | .vStr _ | .vNum _ | .vBool _ | .vArr _ =>
      simp [getProp] at hg
  · intro v x hl hg ht
    match v with
    | .vObj props =>
      have htp : truthyProp (JsValue.vObj props) "Email" = true := by
        simp [truthyProp, isObjType, hg, ht]
      simp [coerceFieldValue, hl, htp, hg]
    | .vNull | .vStr _ | .vNum _ | .vBool _ | .vArr _ =>
      simp [getProp] at hg
  · intro xs
    simp [coerceFieldValue, truthyProp, getProp, isObjType]
  · intro s hiso
    simp [coerceFieldValue, truthyProp, getProp, isObjType, hiso]
  · intro s hiso
    simp [coerceFieldValue, truthyProp, getProp, isObjType, hiso]
  · intro n
    simp [coerceFieldValue, truthyProp, getProp, isObjType, jsToString]
  · intro b
    simp [coerceFieldValue, truthyProp, getProp, isObjType, jsToString]
  · intro props hl he
    simp [coerceFieldValue, hl, he, jsToString]

theorem coerceFieldValue_precedence_witness :
    coerceFieldValue (fun s => s)
      (some (.vObj [("LookupValue", .vStr "X")])) = .vStr "X" :=
  (coerceFieldValue_precedence (fun s => s)).2.1
    (.vObj [("LookupValue", .vStr "X")]) (.vStr "X") rfl (by decide)

/-! ### Token Broker, service mode (`SharePointService.getAccessToken`,
`src/unnamed/part_000` lines 75-117)

Times are `Int` milliseconds (`Date.now()`); the remote token endpoint is
an external collaborator, modelled as its outcome. -/

/-- The in-memory token cache (`this.tokenCache`). -/
structure TokenCache where
  accessToken : Option String
  expiresAt : Option Int

/-- The relevant fields of the remote token response. -/
structure TokenResponse where
  access_token : String
  expires_in : Int

/-- JavaScript `expiresAt > now` where `expiresAt` may be `null`
(`null` coerces to `0` in a numeric comparison). -/
def jsGtOptInt : Option Int → Int → Bool
  | some v, now => decide (now < v)
  | none, now => decide (now < 0)

/-- `getAccessToken()`: returns the token, the updated cache, and the number
of token requests issued by this call.  `configured` is `isConfigured()`;
`remote` is the outcome of the POST to the token endpoint, consulted only
on a cache miss. -/
def getAccessToken (configured : Bool) (cache : TokenCache) (now : Int)
    (remote : Except String TokenResponse) :
    Except String (String × TokenCache × Nat) :=
  if ¬configured then
    .error "SharePoint is not properly configured. Please check environment variables."
  else
    match cache.accessToken with
    | some tok =>
      if jsGtOptInt cache.expiresAt now then .ok (tok, cache, 0)
      else
        match remote with
        | .error e => .error ("Failed to authenticate with SharePoint: " ++ e)
        | .ok r =>
          .ok (r.access_token,
            { accessToken := some r.access_token,
              expiresAt := some (now + (r.expires_in - 300) * 1000) }, 1)
    | none =>
      match remote with
      | .error e => .error ("Failed to authenticate with SharePoint: " ++ e)
      | .ok r =>
        .ok (r.access_token,
          { accessToken := some r.access_token,
            expiresAt := some (now + (r.expires_in - 300) * 1000) }, 1)

/-- C3: once a token is cached at time `T` ms with remote `expires_in = E`
seconds, its recorded expiry is `T + (E-300)*1000` ms; every call strictly
before that instant returns the identical cached value, issuing no token
request and leaving the cache unchanged; a call at or after that instant
issues exactly one token request and re-caches. -/
theorem getAccessToken_cache_monotone
    (v : String) (T E t : Int) (r : Except String TokenResponse) :
    (getAccessToken true ⟨none, none⟩ T (.ok ⟨v, E⟩) =
      .ok (v, ⟨some v, some (T + (E - 300) * 1000)⟩, 1)) ∧
    (t < T + (E - 300) * 1000 →
      getAccessToken true ⟨some v, some (T + (E - 300) * 1000)⟩ t r =
        .ok (v, ⟨some v, some (T + (E - 300) * 1000)⟩, 0)) ∧
    (T + (E - 300) * 1000 ≤ t → ∀ (v' : String) (E' : Int),
      r = .ok ⟨v', E'⟩ →
      getAccessToken true ⟨some v, some (T + (E - 300) * 1000)⟩ t r =
        .ok (v', ⟨some v', some (t + (E' - 300) * 1000)⟩, 1)) := by
  refine ⟨rfl, fun hlt => ?_, fun hge v' E' hr => ?_⟩
  · simp [getAccessToken, jsGtOptInt, hlt]
  · subst hr
    simp [getAccessToken, jsGtOptInt, not_lt.mpr hge]

theorem getAccessToken_cache_monotone_witness :
    (getAccessToken true ⟨none, none⟩ 1000 (.ok ⟨"tokA", 3600⟩) =
      .ok ("tokA", ⟨some "tokA", some (1000 + (3600 - 300) * 1000)⟩, 1)) ∧
    (getAccessToken true ⟨some "tokA", some (1000 + (3600 - 300) * 1000)⟩
        2000 (.ok ⟨"tokB", 3600⟩) =
      .ok ("tokA", ⟨some "tokA", some (1000 + (3600 - 300) * 1000)⟩, 0)) ∧
    (getAccessToken true ⟨some "tokA", some (1000 + (3600 - 300) * 1000)⟩
        9999999 (.ok ⟨"tokB", 3600⟩) =
      .ok ("tokB", ⟨some "tokB", some (9999999 + (3600 - 300) * 1000)⟩, 1)) :=
  ⟨(getAccessToken_cache_monotone "tokA" 1000 3600 0 (.error "")).1,
   (getAccessToken_cache_monotone "tokA" 1000 3600 2000
      (.ok ⟨"tokB", 3600⟩)).2.1 (by decide),
   (getAccessToken_cache_monotone "tokA" 1000 3600 9999999
      (.ok ⟨"tokB", 3600⟩)).2.2 (by decide) "tokB" 3600 rfl⟩

/-! ### Paginated Fetcher (`SharePointService.getListItems` /
`getUserListItems`, `src/unnamed/part_000` lines 244-268 and 466-490)

The remote listing API is modelled as the sequence of pages it serves.
The JavaScript `while (nextLink)` loop is unbounded; it is embedded with an
explicit iteration budget `fuel`, where a `none` result means the loop has
not terminated within `fuel` iterations. -/

/-- One page of a paginated Graph response: its `value` array (absent
models a response without `value`, which the source defaults to `[]`) and
its `@odata.nextLink`. -/
structure GraphPage (α : Type) where
  value : Option (List α)
  nextLink : Option String

/-- The pagination loop body: concatenate the page's `value`, stop when the
accumulated count has reached 100,000 (the source checks AFTER
concatenating), otherwise continue while a next-link is present. -/
def fetchLoopItems {α : Type} (pages : Nat → GraphPage α) :
    Nat → Nat → List α → Option (List α)
  | 0, _, _ => none
  | fuel + 1, k, allItems =>
    let data := pages k
    let allItems' := allItems ++ data.value.getD []
    if 100000 ≤ allItems'.length then some allItems'
    else
      match data.nextLink with
      | some _ => fetchLoopItems pages fuel (k + 1) allItems'
      | none => some allItems'

/-- `getListItems` / `getUserListItems` pagination: run the loop from the
initial endpoint (always present, so the first page is always fetched). -/
def getListItems {α : Type} (pages : Nat → GraphPage α) (fuel : Nat) :
    Option (List α) :=
  fetchLoopItems pages fuel 0 []

/-- For a source whose every page carries exactly `s` records (`0 < s`) and
a next-link, the loop stops at the first accumulated count `≥ 100000`,
which is a multiple of `s` less than `100000 + s`. -/
theorem fetchLoopItems_const_pages {α : Type} (pages : Nat → GraphPage α)
    (s : Nat) (_hs : 0 < s)
    (hp : ∀ k, ((pages k).value.getD []).length = s ∧
      ((pages k).nextLink).isSome = true) :
    ∀ (fuel k : Nat) (acc : List α), acc.length < 100000 →
      100000 ≤ acc.length + fuel * s →
      ∃ l, fetchLoopItems pages fuel k acc = some l ∧
        100000 ≤ l.length ∧ l.length < 100000 + s ∧
        l.length % s = acc.length % s := by
  intro fuel
  induction fuel with
  | zero => intro k acc hlt hge; omega
  | succ n ih =>
    intro k acc hlt hge
    obtain ⟨hlen, hnext⟩ := hp k
    simp only [fetchLoopItems]
    by_cases hcap : 100000 ≤ (acc ++ ((pages k).value.getD [])).length
    · refine ⟨acc ++ ((pages k).value.getD []), by rw [if_pos hcap], hcap, ?_, ?_⟩
      · simp only [List.length_append, hlen]; omega
      · simp only [List.length_append, hlen, Nat.add_mod_right]
    · rw [if_neg hcap]
      match hn : (pages k).nextLink with
      | none => rw [hn] at hnext; simp at hnext
      | some link =>
        have hlt' : (acc ++ ((pages k).value.getD [])).length < 100000 := by
          omega
        have hge' :
            100000 ≤ (acc ++ ((pages k).value.getD [])).length + n * s := by
          simp only [List.length_append, hlen]
          have : acc.length + (n + 1) * s = acc.length + s + n * s := by ring
          omega
        obtain ⟨l, heq, h1, h2, h3⟩ := ih (k + 1)
          (acc ++ ((pages k).value.getD [])) hlt' hge'
        refine ⟨l, heq, h1, h2, ?_⟩
        rw [h3]
        simp only [List.length_append, hlen, Nat.add_mod_right]

/-- An infinite-next-link source serving three records per page. -/
def pagesThree : Nat → GraphPage Nat :=
  fun _ => ⟨some [0, 1, 2], some "https://next"⟩

/-- C2 counterexample: on an infinite-next-link source whose pages carry 3
records each, the pagination loop stops with 100,002 accumulated records —
not exactly 100,000 as the claim states (the cap check runs only after a
whole page has been concatenated). -/
theorem getListItems_cap_counterexample :
    ∃ l, getListItems pagesThree 33334 = some l ∧
      l.length = 100002 ∧ l.length ≠ 100000 := by
  obtain ⟨l, heq, h1, h2, h3⟩ :=
    fetchLoopItems_const_pages pagesThree 3 (by omega)
      (fun k => ⟨rfl, rfl⟩) 33334 0 [] (by simp) (by simp)
  refine ⟨l, heq, ?_, ?_⟩ <;> simp only [List.length_nil, Nat.zero_mod] at h3 <;> omega

/-- C2 amended: for every paginated source whose every response carries a
next-link and at least one record (at most `B` records per page), the loop
terminates within 100,000 iterations and stops at the first point the
accumulated count reaches 100,000, so the final count is at least 100,000
and exceeds it by less than one page; the operation still succeeds with
this partial result rather than failing.  (A next-link source whose pages
carry no records would keep the count at zero and never terminate, so the
at-least-one-record condition is required.) -/
theorem getListItems_cap_behavior {α : Type} (pages : Nat → GraphPage α)
    (B : Nat)
    (hp : ∀ k, 1 ≤ ((pages k).value.getD []).length ∧
      ((pages k).value.getD []).length ≤ B ∧
      ((pages k).nextLink).isSome = true) :
    ∃ l, getListItems pages 100000 = some l ∧
      100000 ≤ l.length ∧ l.length < 100000 + B := by
  suffices h : ∀ (fuel k : Nat) (acc : List α), acc.length < 100000 →
      100000 ≤ acc.length + fuel →
      ∃ l, fetchLoopItems pages fuel k acc = some l ∧
        100000 ≤ l.length ∧ l.length < 100000 + B by
    exact h 100000 0 [] (by simp) (by simp)
  intro fuel
  induction fuel with
  | zero => intro k acc hlt hge; omega
  | succ n ih =>
    intro k acc hlt hge
    obtain ⟨h1, hB, hnext⟩ := hp k
    simp only [fetchLoopItems]
    by_cases hcap : 100000 ≤ (acc ++ ((pages k).value.getD [])).length
    · refine ⟨acc ++ ((pages k).value.getD []), by rw [if_pos hcap], hcap, ?_⟩
      simp only [List.length_append] at hcap ⊢
      omega
    · rw [if_neg hcap]
      match hn : (pages k).nextLink with
      | none => rw [hn] at hnext; simp at hnext
      | some link =>
        have hlt' : (acc ++ ((pages k).value.getD [])).length < 100000 := by
          omega
        have hge' :
            100000 ≤ (acc ++ ((pages k).value.getD [])).length + n := by
          simp only [List.length_append]
          omega
        exact ih (k + 1) (acc ++ ((pages k).value.getD [])) hlt' hge'

/-- An infinite-next-link source serving one record per page. -/
def pagesOne : Nat → GraphPage Nat :=
  fun _ => ⟨some [7], some "https://next"⟩

theorem getListItems_cap_behavior_witness :
    ∃ l, getListItems pagesOne 100000 = some l ∧
      100000 ≤ l.length ∧ l.length < 100000 + 1 :=
  getListItems_cap_behavior pagesOne 1
    (fun k => ⟨by simp [pagesOne], by simp [pagesOne], rfl⟩)

/-! ### Token Broker, user mode (`SharePointOAuthService`,
`src/index.js` lines 1430-1595)

The per-user connection row of the `sharepoint_connections` table is
`SPConnection`; the store for one user is `Option SPConnection` (`none` =
no stored connection).  The remote refresh endpoint and the Graph API call
are external collaborators, modelled as their outcomes. -/

/-- One user's stored connection row (tokens at rest are the vault's
`iv_hex:ciphertext_hex` strings; `expires_at` in `Int` ms). -/
structure SPConnection where
  access_token : List Char
  refresh_token : List Char
  expires_at : Int
  tenant_id : Option String

/-- Errors surfaced by the user-mode broker.  `notConnected` is the
source's `'User has not connected their SharePoint account'`. -/
inductive SPError where
  | notConnected : SPError
  | vault (e : VaultError) : SPError
  | refreshFailed (msg : String) : SPError
  | remoteApi (msg : String) : SPError
deriving DecidableEq, Repr

/-- The outcome of the external token-refresh endpoint: new access token,
new refresh token (the source keeps the old one when the response omits
it, folded into this outcome) and `expires_in` seconds. -/
def RefreshOutcome : Type := Except String (List Nat × List Nat × Int)

/-- `storeUserTokens`: encrypt both tokens (with the two fresh IVs made
explicit) and write the connection row with
`expires_at = now + expiresIn*1000`. -/
def storeUserTokens (C : BlockCipher) (key : Option (List Nat))
    (ivA ivB : List Nat) (now : Int) (accessToken refreshToken : List Nat)
    (expiresIn : Int) (tenantId : Option String) :
    Except SPError SPConnection :=
  match encrypt C key ivA accessToken, encrypt C key ivB refreshToken with
  | .ok ea, .ok er =>
    .ok { access_token := ea, refresh_token := er,
          expires_at := now + expiresIn * 1000, tenant_id := tenantId }
  | .error e, _ => .error (.vault e)
  | _, .error e => .error (.vault e)

/-- `getUserAccessToken(userId)`: fail with the not-connected error when no
row exists; refresh (decrypt refresh token, call the refresh endpoint,
rewrite the row) when `expires_at <= now + 5min`; otherwise decrypt and
return the stored access token.  Returns the outcome and the user's store
after the call. -/
def getUserAccessToken (C : BlockCipher) (key : Option (List Nat))
    (ivA ivB : List Nat) (refreshRemote : RefreshOutcome) (now : Int)
    (store : Option SPConnection) :
    Except SPError (List Nat) × Option SPConnection :=
  match store with
  | none => (.error .notConnected, none)
  | some conn =>
    if conn.expires_at ≤ now + 5 * 60 * 1000 then
      match decrypt C key conn.refresh_token with
      | .error e => (.error (.vault e), some conn)
      | .ok _rt =>
        match refreshRemote with
        | .error msg => (.error (.refreshFailed msg), some conn)
        | .ok (newAccess, newRefresh, expIn) =>
          match storeUserTokens C key ivA ivB now newAccess newRefresh
              expIn conn.tenant_id with
          | .error e => (.error e, some conn)
          | .ok conn' => (.ok newAccess, some conn')
    else
      match decrypt C key conn.access_token with
      | .error e => (.error (.vault e), some conn)
      | .ok tok => (.ok tok, some conn)

/-- The outcome of the underlying Graph HTTP call. -/
inductive GraphOutcome (β : Type) where
  | ok (data : β) : GraphOutcome β
  | httpError (status : Nat) (message : String) : GraphOutcome β

/-- `SharePointOAuthService.graphRequest(userId, ...)`: acquire the user's
token, issue the call; on an HTTP 401 the user's stored connection is
deleted (`disconnectUser`) before the error is rethrown. -/
def graphRequestUser {β : Type} (C : BlockCipher) (key : Option (List Nat))
    (ivA ivB : List Nat) (refreshRemote : RefreshOutcome) (now : Int)
    (remote : GraphOutcome β) (store : Option SPConnection) :
    Except SPError β × Option SPConnection :=
  let acquired := getUserAccessToken C key ivA ivB refreshRemote now store
  match acquired.1 with
  | .error e => (.error e, acquired.2)
  | .ok _tok =>
    match remote with
    | .ok d => (.ok d, acquired.2)
    | .httpError status msg =>
      if status = 401 then (.error (.remoteApi msg), none)
      else (.error (.remoteApi msg), acquired.2)

/-- C7: whenever a user-mode Graph request whose token acquisition
succeeded receives HTTP 401 from the remote API, the user's stored
connection is deleted, the call rethrows the remote error, and every
subsequent authenticated call for that user fails with the not-connected
error instead of reusing the dead token. -/
theorem graphRequest_401_disconnects {β : Type} (C : BlockCipher)
    (key : Option (List Nat)) (ivA ivB : List Nat)
    (refreshRemote : RefreshOutcome) (now : Int)
    (store : Option SPConnection) (tok : List Nat) (msg : String)
    (hacq : (getUserAccessToken C key ivA ivB refreshRemote now store).1 =
      .ok tok) :
    (graphRequestUser C key ivA ivB refreshRemote now
        (GraphOutcome.httpError (β := β) 401 msg) store).2 = none ∧
    (graphRequestUser C key ivA ivB refreshRemote now
        (GraphOutcome.httpError (β := β) 401 msg) store).1 =
      .error (.remoteApi msg) ∧
    (∀ (C' : BlockCipher) (key' : Option (List Nat)) (ivA' ivB' : List Nat)
        (rr' : RefreshOutcome) (now' : Int),
      (getUserAccessToken C' key' ivA' ivB' rr' now'
        (graphRequestUser C key ivA ivB refreshRemote now
          (GraphOutcome.httpError (β := β) 401 msg) store).2).1 =
        .error .notConnected) := by
  have h2 : (graphRequestUser C key ivA ivB refreshRemote now
      (GraphOutcome.httpError (β := β) 401 msg) store).2 = none := by
    simp [graphRequestUser, hacq]
  refine ⟨h2, ?_, ?_⟩
  · simp [graphRequestUser, hacq]
  · intro C' key' ivA' ivB' rr' now'
    rw [h2]
    rfl

/-- A concrete stored connection for the C7 witness: the access token is a
valid `iv_hex:ciphertext_hex` encryption of `text0` under `key0`, and the
expiry is far in the future so no refresh is attempted. -/
def conn0 : SPConnection :=
  { access_token := bytesToHex iv0 ++ ':' :: bytesToHex text0,
    refresh_token := bytesToHex iv1 ++ ':' :: bytesToHex text0,
    expires_at := 10000000,
    tenant_id := none }

theorem graphRequest_401_disconnects_witness :
    (graphRequestUser cipher0 (some key0) iv0 iv1 (.error "unused") 0
        (GraphOutcome.httpError (β := Nat) 401 "Invalid token") (some conn0)).2
      = none ∧
    (graphRequestUser cipher0 (some key0) iv0 iv1 (.error "unused") 0
        (GraphOutcome.httpError (β := Nat) 401 "Invalid token") (some conn0)).1
      = .error (.remoteApi "Invalid token") ∧
    (∀ (C' : BlockCipher) (key' : Option (List Nat)) (ivA' ivB' : List Nat)
        (rr' : RefreshOutcome) (now' : Int),
      (getUserAccessToken C' key' ivA' ivB' rr' now'
        (graphRequestUser cipher0 (some key0) iv0 iv1 (.error "unused") 0
          (GraphOutcome.httpError (β := Nat) 401 "Invalid token")
          (some conn0)).2).1 = .error .notConnected) :=
  graphRequest_401_disconnects cipher0 (some key0) iv0 iv1 (.error "unused")
    0 (some conn0) text0 "Invalid token" rfl

/-! ### SQL-dump extractor (`SqlParserService.extractTableData`,
`src/sqlParserService.js` lines 91-155)

The `node-sql-parser` AST is an external collaborator; its nodes are
modelled by `SqlAstNode`.  The input to `extractTableData` is the list of
per-statement parse outcomes (`none` = `astify` threw and the statement is
skipped).  A thrown property access inside node processing (the source
dereferences `node.table` without a null check) also aborts the remaining
nodes of that statement while keeping the rows and columns accumulated so
far, matching the per-statement try/catch. -/

/-- A literal cell extracted from an INSERT value AST node. -/
inductive SqlCell where
  | cNum (n : Int) : SqlCell
  | cStr (s : String) : SqlCell
  | cBool (b : Bool) : SqlCell
  | cNull : SqlCell
deriving DecidableEq, Repr

/-- An entry of a parser `table` array ( `{db, table, as}` ). -/
structure TableEntry where
  table : Option String

/-- The `table` field of a CREATE/INSERT node: a plain string, an array of
entries, or an object with a `table` property. -/
inductive TableRef where
  | tstr (s : String) : TableRef
  | tarr (l : List TableEntry) : TableRef
  | tobj (t : Option String) : TableRef

/-- A column node: `{column: name}` or a bare string
(the two branches of `extractColumnsFromCreate` and of the INSERT-columns
mapping). -/
inductive ColNode where
  | cObj (column : String) : ColNode
  | cStr (s : String) : ColNode

/-- `col.column || col`. -/
def colNodeName : ColNode → String
  | .cObj c => c
  | .cStr s => s

/-- A CREATE TABLE definition entry; `column = none` models a non-column
definition (constraint, index), which the source skips. -/
structure CreateDef where
  column : Option ColNode

/-- One value AST node inside an INSERT `values` list: its `type` tag and
its `value` payload (`none` = no usable `value`, pushed as `null`). -/
structure ValNode where
  vtype : String
  value : Option SqlCell

/-- One parenthesised tuple of an INSERT: `{value: [...]}`. -/
structure ValueSet where
  value : Option (List ValNode)

/-- A parsed SQL statement node.  `other` covers every statement shape the
extractor ignores. -/
inductive SqlAstNode where
  | create (keyword : String) (table : Option TableRef)
      (create_definitions : Option (List CreateDef)) : SqlAstNode
  | insert (table : Option TableRef) (columns : Option (List ColNode))
      (values : Option (List ValueSet)) : SqlAstNode
  | other : SqlAstNode

/-- `extractTableName(tableNode)`.  In the array case with a last entry
whose `table` is falsy, the source returns the raw entry object, which can
never compare equal to the requested table-name string; that outcome is
folded into `none`. -/
def extractTableName : TableRef → Option String
  | .tstr s => some s
  | .tarr l =>
    match l.getLast? with
    | some e =>
      match e.table with
      | some t => if t = "" then none else some t
      | none => none
    | none => none
  | .tobj t =>
    match t with
    | some s => if s = "" then none else some s
    | none => none

/-- `extractTableName` applied to a possibly-absent `node.table`; `none`
input models the JavaScript `TypeError` thrown on a null dereference. -/
def extractTableNameE : Option TableRef → Except Unit (Option String)
  | none => .error ()
  | some r => .ok (extractTableName r)

/-- `extractColumnsFromCreate(definitions)`. -/
def extractColumnsFromCreate (defs : List CreateDef) : List String :=
  defs.filterMap (fun d => d.column.map colNodeName)

/-- Value extraction for one INSERT value node: every recognised `type`
pushes `val.value`, a `null` type pushes `null`, and a node with no usable
`value` pushes `null`. -/
def extractVal (v : ValNode) : SqlCell :=
  if v.vtype = "null" then .cNull
  else
    match v.value with
    | some x => x
    | none => .cNull

/-- `extractValuesFromInsert(values, expectedColumns)`: map each tuple's
value list and right-pad with `null` up to the expected column count. -/
def extractValuesFromInsert (values : List ValueSet)
    (expectedColumns : Nat) : List (List SqlCell) :=
  values.map (fun vs =>
    let row := (vs.value.getD []).map extractVal
    row ++ List.replicate (expectedColumns - row.length) SqlCell.cNull)

/-- Processing of one AST node inside `extractTableData`'s loop, over the
state `(columns, rows)`. -/
def processNode (tableName : String)
    (st : List String × List (List SqlCell)) :
    SqlAstNode → Except Unit (List String × List (List SqlCell))
  | .create keyword table defs =>
    if keyword = "table" then do
      let nm ← extractTableNameE table
      if nm = some tableName then
        match defs with
        | some ds => pure (extractColumnsFromCreate ds, st.2)
        | none => pure st
      else pure st
    else pure st
  | .insert table cols vals => do
    let nm ← extractTableNameE table
    if nm = some tableName then
      let cols' :=
        if st.1 = [] then
          match cols with
          | some cs => cs.map colNodeName
          | none => st.1
        else st.1
      let rows' :=
        match vals with
        | some vs => st.2 ++ extractValuesFromInsert vs cols'.length
        | none => st.2
      pure (cols', rows')
    else pure st
  | .other => pure st

/-- Process the nodes of one parsed statement; a thrown error keeps the
state accumulated so far and abandons the statement's remaining nodes. -/
def processNodes (tableName : String)
    (st : List String × List (List SqlCell)) :
    List SqlAstNode → List String × List (List SqlCell)
  | [] => st
  | n :: rest =>
    match processNode tableName st n with
    | .ok st' => processNodes tableName st' rest
    | .error _ => st

/-- Generic `Column1..ColumnN` names used when no column list was found. -/
def genericColumns (n : Nat) : List String :=
  (List.range n).map (fun i => "Column" ++ toString (i + 1))

/-- `extractTableData(filePath, tableName)`, from the per-statement parse
outcomes onward (file reading and statement splitting happen before).
Returns `{headers, rows}` where `rows` is `[columns, ...dataRows]`. -/
def extractTableData (parsed : List (Option (List SqlAstNode)))
    (tableName : String) : List String × List (List SqlCell) :=
  let st := parsed.foldl (fun st o =>
    match o with
    | none => st
    | some nodes => processNodes tableName st nodes) ([], [])
  let columns :=
    if st.1 = [] ∧ st.2 ≠ [] then genericColumns ((st.2.head?.getD []).length)
    else st.1
  (columns, columns.map SqlCell.cStr :: st.2)

/-- C10: for every dump and requested table name, `extractTableData`
returns `{headers, rows}` in which `rows` begins with the headers
themselves as its first element, so the number of extracted data rows is
`rows.length - 1`. -/
theorem extractTableData_rows_headers_first
    (parsed : List (Option (List SqlAstNode))) (tableName : String) :
    (extractTableData parsed tableName).2.head? =
      some ((extractTableData parsed tableName).1.map SqlCell.cStr) ∧
    (extractTableData parsed tableName).2.length =
      ((extractTableData parsed tableName).2.tail).length + 1 := by
  constructor
  · simp only [extractTableData]
    rfl
  · simp only [extractTableData]
    simp

end AnalyticCore
